import Mathlib

/-!
Verification development for the cell library component (src/install.py).

The program keeps a process wide registry mapping library names to raw
source text, exposes three IPython magics (library, import_library,
export_library), and installs a meta path finder that synthesizes module
specs from the registry.  Below, Python dictionaries are modelled as
insertion ordered association lists with in place overwrite, strings as
Lean strings, and the file system and the interpreter module cache as
further dictionaries.  Top level execution of stored source is modelled
by a straight line statement language.
-/

namespace CellLib

/-- Model of a Python dict with string keys: an insertion ordered
association list.  At most one entry per key is maintained by
`dictInsert`. -/
abbrev PyDict (α : Type) : Type := List (String × α)

/-- Model of `d[k] = v` on a Python dict: overwrite the value in place if
the key is present, otherwise append the new entry (insertion order). -/
def dictInsert {α : Type} (k : String) (v : α) : PyDict α → PyDict α
  | [] => [(k, v)]
  | (k₁, v₁) :: rest =>
    if k₁ = k then (k, v) :: rest else (k₁, v₁) :: dictInsert k v rest

/-- Model of `d.get(k)` and of `k in d` on a Python dict: first matching
entry, if any. -/
def dictGet {α : Type} (k : String) : PyDict α → Option α
  | [] => none
  | (k₁, v₁) :: rest => if k₁ = k then some v₁ else dictGet k rest

/-- Model of `list(d.keys())` on a Python dict, in insertion order. -/
def dictKeys {α : Type} (d : PyDict α) : List String :=
  d.map Prod.fst

/-- Model of the Python `str.strip()` method: drop unicode whitespace from
both ends of the string. -/
def pyStrip (s : String) : String :=
  ⟨((s.data.dropWhile Char.isWhitespace).reverse.dropWhile
      Char.isWhitespace).reverse⟩

/-- Accumulator recursion behind `pySplitWs`, the model of the Python
`str.split()` method with no separator argument: whitespace runs separate
tokens and empty tokens are dropped. -/
def splitWsAux : List Char → List Char → List (List Char)
  | [], acc => if acc.isEmpty then [] else [acc.reverse]
  | c :: rest, acc =>
    if c.isWhitespace then
      if acc.isEmpty then splitWsAux rest []
      else acc.reverse :: splitWsAux rest []
    else splitWsAux rest (c :: acc)

/-- Model of the Python `str.split()` method with no separator. -/
def pySplitWs (s : String) : List String :=
  (splitWsAux s.data []).map fun cs => ⟨cs⟩

/-- Accumulator recursion behind `pySplitDot`, the model of the Python
`str.split(".")` call used by the finder: split at every dot, keeping
empty segments. -/
def splitDotAux : List Char → List Char → List (List Char)
  | [], acc => [acc.reverse]
  | c :: rest, acc =>
    if c = '.' then acc.reverse :: splitDotAux rest []
    else splitDotAux rest (c :: acc)

/-- Model of the Python `fullname.split(".")` call. -/
def pySplitDot (s : String) : List String :=
  (splitDotAux s.data []).map fun cs => ⟨cs⟩

/-- Predicate for a well formed directive token: a non empty string with
no whitespace characters.  Names and paths of this shape survive the
strip and whitespace split performed by the magics unchanged. -/
abbrev IsToken (s : String) : Prop :=
  s.data ≠ [] ∧ ∀ c ∈ s.data, c.isWhitespace = false

/-! Messages printed by the magics, verbatim from src/install.py with
apostrophes written as hexadecimal escapes. -/

/-- Message of `library` when the name is empty after stripping. -/
def provideNameMsg : String :=
  "Please provide a library name. Usage: %%library <library_name>"

/-- Success message of the `library` cell magic. -/
def storedMsg (n : String) : String :=
  "Library cell \x27" ++ n ++ "\x27 stored successfully."

/-- Message of `import_library` and `export_library` on a missing name. -/
def notFoundMsg (n : String) : String :=
  "Library \x27" ++ n ++ "\x27 not found. Please define it with %%library first."

/-- Success message of `import_library`. -/
def importedMsg (n : String) : String :=
  "Library \x27" ++ n ++ "\x27 imported successfully."

/-- Error message of `import_library` when execution of the stored source
raises an exception, built from the name and the exception text. -/
def importErrMsg (n e : String) : String :=
  "Error importing library \x27" ++ n ++ "\x27: " ++ e

/-- Usage message of `export_library` on a wrong argument count. -/
def usageMsg : String :=
  "Usage: %export_library <library_name> <file_path>"

/-- Success message of `export_library`. -/
def exportedMsg (n p : String) : String :=
  "Library \x27" ++ n ++ "\x27 exported to \x27" ++ p ++ "\x27."

/-- Model of `CellLibraryMagics.library` (src/install.py lines 18 to 32):
strip the magic line to obtain the name; if it is empty, report usage and
leave the registry unchanged; otherwise store the cell text under the
stripped name, overwriting any previous entry.  Returns the new registry
and the printed messages. -/
def library (reg : PyDict String) (line cellText : String) :
    PyDict String × List String :=
  let lib_name := pyStrip line
  if lib_name = "" then (reg, [provideNameMsg])
  else (dictInsert lib_name cellText reg, [storedMsg lib_name])

/-- Straight line fragment of Python top level statements, used as the
model of a stored source text on the execution paths: an assignment of a
numeric value to a global name, or a raise of an exception carrying a
message. -/
inductive Stmt : Type where
  | assign (x : String) (v : Nat)
  | raiseExc (msg : String)
deriving DecidableEq

/-- Model of the Python `exec(code, ns)` call on the straight line
fragment: statements run in order against the namespace dict, which is
mutated in place; a raise stops execution, keeping the bindings made so
far, and yields the exception message. -/
def runStmts : List Stmt → PyDict Nat → PyDict Nat × Option String
  | [], ns => (ns, none)
  | Stmt.assign x v :: rest, ns => runStmts rest (dictInsert x v ns)
  | Stmt.raiseExc m :: _, ns => (ns, some m)

/-- Model of `CellLibraryMagics.import_library` (src/install.py lines 34
to 52): strip the line to obtain the name; if absent from the registry,
report not found and stop; otherwise execute the stored source against
the callers global namespace inside try/except, reporting success or the
wrapped error.  The executor `execF` abstracts the host `exec` builtin;
the except clause of the source is the match on the exception component,
so the directive always returns normally (no exception channel in the
result type). -/
def import_library {α : Type}
    (execF : α → PyDict Nat → PyDict Nat × Option String)
    (reg : PyDict α) (line : String) (ns : PyDict Nat) :
    PyDict Nat × List String :=
  let lib_name := pyStrip line
  match dictGet lib_name reg with
  | none => (ns, [notFoundMsg lib_name])
  | some code =>
    match execF code ns with
    | (ns₂, none) => (ns₂, [importedMsg lib_name])
    | (ns₂, some e) => (ns₂, [importErrMsg lib_name e])

/-- Model of `CellLibraryMagics.export_library` (src/install.py lines 54
to 76): strip and whitespace split the line; exactly two tokens are
required, else usage is reported; the first token must be a registered
name, else not found is reported; otherwise the stored source text is
written to the path named by the second token, truncating any existing
file.  The file system is a dict from path to contents; the write is
modelled as succeeding (the except branch for I/O failure is outside the
model). -/
def export_library (reg : PyDict String) (line : String) (fs : PyDict String) :
    PyDict String × List String :=
  let parts := pySplitWs (pyStrip line)
  if parts.length ≠ 2 then (fs, [usageMsg])
  else
    let lib_name := parts.headD ""
    let file_path := (parts.drop 1).headD ""
    match dictGet lib_name reg with
    | none => (fs, [notFoundMsg lib_name])
    | some code =>
      (dictInsert file_path code fs, [exportedMsg lib_name file_path])

/-- Result of a meta path finder: either a spec wrapping a registered cell
source through `CellLibraryLoader` (carrying the library name and the
stored code, as in `ModuleSpec(fullname, CellLibraryLoader(lib_name,
code))`), or an opaque spec produced by a standard finder. -/
inductive ModSpec : Type where
  | cellSpec (fullname libName code : String)
  | stdSpec (fullname : String)
deriving DecidableEq

/-- Model of the synthetic module object built for the bare sentinel name:
`types.ModuleType(fullname)` with `__package__` set to the full name and
`__all__` set to the registered names (the `__spec__ = None` assignment is
not modelled). -/
structure PyModule where
  modName : String
  modPackage : String
  modAll : List String
deriving DecidableEq

/-- Model of `CellLibraryFinder.find_spec` (src/install.py lines 113 to
143).  Split the full name on dots.  If the first segment is the sentinel
cell: for the sentinel alone, build the synthetic listing module, store it
into the interpreter module cache under the full name, and return none;
for exactly two segments, return a cell spec when the second segment is
registered; otherwise return none.  If the first segment is not the
sentinel, return a cell spec when the whole name is registered (the bare
fallback), otherwise none.  The function is total: no branch raises. -/
def find_spec (reg : PyDict String) (sysMods : PyDict PyModule)
    (fullname : String) : Option ModSpec × PyDict PyModule :=
  let parts := pySplitDot fullname
  if parts.headD "" = "cell" then
    if parts.length = 1 then
      let m : PyModule := ⟨fullname, fullname, dictKeys reg⟩
      (none, dictInsert fullname m sysMods)
    else if parts.length = 2 then
      let lib_name := (parts.drop 1).headD ""
      match dictGet lib_name reg with
      | some code => (some (ModSpec.cellSpec fullname lib_name code), sysMods)
      | none => (none, sysMods)
    else (none, sysMods)
  else
    match dictGet fullname reg with
    | some code => (some (ModSpec.cellSpec fullname fullname code), sysMods)
    | none => (none, sysMods)

/-- Entry of the `sys.meta_path` list: either the registry backed
`CellLibraryFinder`, or a standard finder abstracted as a pure resolution
function. -/
inductive Finder : Type where
  | cellFinder : Finder
  | stdFinder (resolve : String → Option ModSpec) : Finder

/-- Query one meta path entry for a spec, threading the module cache. -/
def runFinder (reg : PyDict String) (sysMods : PyDict PyModule) (f : Finder)
    (name : String) : Option ModSpec × PyDict PyModule :=
  match f with
  | Finder.cellFinder => find_spec reg sysMods name
  | Finder.stdFinder g => (g name, sysMods)

/-- Model of the import machinery walking `sys.meta_path` in order: each
finder is asked for a spec and the first one returning a spec serves the
name. -/
def resolveMeta (reg : PyDict String) :
    List Finder → PyDict PyModule → String → Option ModSpec × PyDict PyModule
  | [], sysMods, _ => (none, sysMods)
  | f :: rest, sysMods, name =>
    match runFinder reg sysMods f name with
    | (some spec, sysMods₂) => (some spec, sysMods₂)
    | (none, sysMods₂) => resolveMeta reg rest sysMods₂ name

/-- Test for `isinstance(f, CellLibraryFinder)`. -/
def isCellFinder : Finder → Bool
  | Finder.cellFinder => true
  | Finder.stdFinder _ => false

/-- Model of the installation guard (src/install.py lines 146 to 147):
unless a `CellLibraryFinder` is already present, insert one at the front
of `sys.meta_path`. -/
def installFinder (metaPath : List Finder) : List Finder :=
  if metaPath.any isCellFinder then metaPath
  else Finder.cellFinder :: metaPath

/-- Tail of the raw installer string cell_library_source (src/install.py lines 284 to 299): the text of the function inject_export_button exactly as it is written into the installed file cell_library.py, byte for byte, with braces and apostrophes as hexadecimal escapes. -/
def injectExportButtonArtifactText : String :=
  "def inject_export_button(lib_name):\n" ++
  "    button_id = f\"export-btn-\x7blib_name\x7d\"\n" ++
  "    js_code = f\\\"\n" ++
  "    (function() \x7b\x7b\n" ++
  "        var btn = document.createElement(\x27button\x27);\n" ++
  "        btn.id = \x27\x7bbutton_id\x7d\x27;\n" ++
  "        btn.innerHTML = \x27Export Library: \x7blib_name\x7d\x27;\n" ++
  "        btn.style.margin = \x275px\x27;\n" ++
  "        btn.onclick = function() \x7b\x7b\n" ++
  "            alert(\"Export logic for library: \x7blib_name\x7d would run here.\");\n" ++
  "        \x7d\x7d;\n" ++
  "        var toolbar = document.querySelector(\x27#maintoolbar-container\x27) || document.body;\n" ++
  "        toolbar.appendChild(btn);\n" ++
  "    \x7d\x7d)();\n" ++
  "    \\\"\n" ++
  "    display(Javascript(js_code))\n"

/-- Example standard finder resolving exactly the name os, standing for
the host resolvers on the normal module search path. -/
def stdOsFinder : Finder :=
  Finder.stdFinder fun n =>
    if n = "os" then some (ModSpec.stdSpec "os") else none

set_option maxRecDepth 10000

theorem dictGet_insert_self {α : Type} (k : String) (v : α) (d : PyDict α) :
    dictGet k (dictInsert k v d) = some v := by
  induction d with
  | nil => simp [dictInsert, dictGet]
  | cons hd tl ih =>
    obtain ⟨k₁, v₁⟩ := hd
    by_cases h : k₁ = k <;> simp [dictInsert, dictGet, h, ih]

theorem dictGet_insert_ne {α : Type} (k k₂ : String) (v : α) (d : PyDict α)
    (h : k₂ ≠ k) : dictGet k₂ (dictInsert k v d) = dictGet k₂ d := by
  induction d with
  | nil =>
    simp [dictInsert, dictGet]
    exact fun hk => absurd hk.symm h
  | cons hd tl ih =>
    obtain ⟨k₁, v₁⟩ := hd
    by_cases h₁ : k₁ = k
    · subst h₁
      simp [dictInsert, dictGet, Ne.symm h]
    · simp only [dictInsert, dictGet, h₁, if_false]
      by_cases h₂ : k₁ = k₂ <;> simp [dictGet, h₂, ih]

theorem dictGet_eq_none_iff {α : Type} (k : String) (d : PyDict α) :
    dictGet k d = none ↔ k ∉ dictKeys d := by
  induction d with
  | nil => simp [dictGet, dictKeys]
  | cons hd tl ih =>
    obtain ⟨k₁, v₁⟩ := hd
    by_cases h₁ : k₁ = k
    · subst h₁
      simp [dictGet, dictKeys]
    · have hk : k ≠ k₁ := fun e => h₁ e.symm
      show (if k₁ = k then some v₁ else dictGet k tl) = none ↔
        k ∉ k₁ :: dictKeys tl
      rw [if_neg h₁, ih]
      simp [List.mem_cons, hk]

theorem dictKeys_insert_of_mem {α : Type} (k : String) (v : α) (d : PyDict α)
    (h : dictGet k d ≠ none) : dictKeys (dictInsert k v d) = dictKeys d := by
  induction d with
  | nil => simp [dictGet] at h
  | cons hd tl ih =>
    obtain ⟨k₁, v₁⟩ := hd
    by_cases h₁ : k₁ = k
    · simp [dictInsert, dictKeys, h₁]
    · simp only [dictGet, h₁, if_false] at h
      have hstep : dictInsert k v ((k₁, v₁) :: tl) = (k₁, v₁) :: dictInsert k v tl := by
        simp [dictInsert, h₁]
      rw [hstep]
      show k₁ :: dictKeys (dictInsert k v tl) = k₁ :: dictKeys tl
      rw [ih h]

theorem dictKeys_insert_of_none {α : Type} (k : String) (v : α) (d : PyDict α)
    (h : dictGet k d = none) : dictKeys (dictInsert k v d) = dictKeys d ++ [k] := by
  induction d with
  | nil => simp [dictInsert, dictKeys]
  | cons hd tl ih =>
    obtain ⟨k₁, v₁⟩ := hd
    by_cases h₁ : k₁ = k
    · simp [dictGet, h₁] at h
    · simp only [dictGet, h₁, if_false] at h
      have hstep : dictInsert k v ((k₁, v₁) :: tl) = (k₁, v₁) :: dictInsert k v tl := by
        simp [dictInsert, h₁]
      rw [hstep]
      show k₁ :: dictKeys (dictInsert k v tl) = (k₁ :: dictKeys tl) ++ [k]
      rw [ih h]
      rfl

theorem dictKeys_insert_nodup {α : Type} (k : String) (v : α) (d : PyDict α)
    (h : (dictKeys d).Nodup) : (dictKeys (dictInsert k v d)).Nodup := by
  cases hg : dictGet k d with
  | some w =>
    rw [dictKeys_insert_of_mem k v d (by simp [hg])]
    exact h
  | none =>
    rw [dictKeys_insert_of_none k v d hg]
    have hk : k ∉ dictKeys d := (dictGet_eq_none_iff k d).mp hg
    simp [List.nodup_append, h, hk]

theorem dropWhile_ws_cons (c : Char) (cs : List Char)
    (h : c.isWhitespace = false) :
    (c :: cs).dropWhile Char.isWhitespace = c :: cs := by
  simp [List.dropWhile_cons, h]

theorem pyStrip_append_tokens (N P : String) (hN : IsToken N)
    (hP : IsToken P) : pyStrip (N ++ " " ++ P) = N ++ " " ++ P := by
  obtain ⟨hNne, hNws⟩ := hN
  obtain ⟨hPne, hPws⟩ := hP
  have hdata : (N ++ " " ++ P).data = N.data ++ (' ' :: P.data) := by
    simp [String.data_append]
  apply String.ext
  show ((((N ++ " " ++ P).data).dropWhile Char.isWhitespace).reverse.dropWhile
      Char.isWhitespace).reverse = (N ++ " " ++ P).data
  rw [hdata]
  obtain ⟨n, nrest, hnd⟩ := List.exists_cons_of_ne_nil hNne
  have hrev : P.data.reverse ≠ [] := by simpa using hPne
  obtain ⟨q, qs, hq⟩ := List.exists_cons_of_ne_nil hrev
  have hqmem : q ∈ P.data := by
    have hmm : q ∈ P.data.reverse := by simp [hq]
    simpa using hmm
  have h₁ : (N.data ++ (' ' :: P.data)).dropWhile Char.isWhitespace
      = N.data ++ (' ' :: P.data) := by
    rw [hnd, List.cons_append]
    exact dropWhile_ws_cons n _ (hNws n (by rw [hnd]; simp))
  rw [h₁]
  have h₂ : (N.data ++ (' ' :: P.data)).reverse
      = q :: (qs ++ (' ' :: N.data.reverse)) := by
    rw [List.reverse_append, List.reverse_cons, hq]
    simp
  rw [h₂, dropWhile_ws_cons q _ (hPws q hqmem), ← h₂, List.reverse_reverse]

theorem splitWsAux_token (t : List Char)
    (ht : ∀ c ∈ t, c.isWhitespace = false) :
    ∀ cs acc, splitWsAux (t ++ cs) acc = splitWsAux cs (t.reverse ++ acc) := by
  induction t with
  | nil => intro cs acc; simp
  | cons c t ih =>
    intro cs acc
    have hc : c.isWhitespace = false := ht c (by simp)
    have ht₂ : ∀ c₂ ∈ t, c₂.isWhitespace = false :=
      fun c₂ h₂ => ht c₂ (by simp [h₂])
    rw [List.cons_append]
    show (if c.isWhitespace then _ else splitWsAux (t ++ cs) (c :: acc)) = _
    rw [if_neg (by simp [hc]), ih ht₂]
    simp

theorem pySplitWs_two_tokens (N P : String) (hN : IsToken N)
    (hP : IsToken P) : pySplitWs (N ++ " " ++ P) = [N, P] := by
  obtain ⟨hNne, hNws⟩ := hN
  obtain ⟨hPne, hPws⟩ := hP
  have hdata : (N ++ " " ++ P).data = N.data ++ (' ' :: P.data) := by
    simp [String.data_append]
  show (splitWsAux (N ++ " " ++ P).data []).map _ = _
  rw [hdata, splitWsAux_token N.data hNws (' ' :: P.data) []]
  have hws : (' ').isWhitespace = true := by decide
  have hstep : splitWsAux (' ' :: P.data) (N.data.reverse ++ [])
      = N.data :: splitWsAux P.data [] := by
    simp [splitWsAux, hws, List.isEmpty_iff, hNne]
  rw [hstep]
  have hP₂ : splitWsAux P.data [] = [P.data] := by
    have htok := splitWsAux_token P.data hPws [] []
    rw [List.append_nil] at htok
    rw [htok]
    simp [splitWsAux, List.isEmpty_iff, hPne]
  rw [hP₂]
  show [(⟨N.data⟩ : String), ⟨P.data⟩] = [N, P]
  simp

/-- Helper: a token (non empty, no whitespace) is unchanged by the model
of the Python strip. -/
theorem pyStrip_eq_self_of_token (N : String) (hN : IsToken N) :
    pyStrip N = N := by
  obtain ⟨hne, hws⟩ := hN
  apply String.ext
  show ((N.data.dropWhile Char.isWhitespace).reverse.dropWhile
      Char.isWhitespace).reverse = N.data
  obtain ⟨n, nrest, hnd⟩ := List.exists_cons_of_ne_nil hne
  have h₁ : N.data.dropWhile Char.isWhitespace = N.data := by
    rw [hnd]
    exact dropWhile_ws_cons n _ (hws n (by rw [hnd]; simp))
  rw [h₁]
  have hrev : N.data.reverse ≠ [] := by simpa using hne
  obtain ⟨q, qs, hq⟩ := List.exists_cons_of_ne_nil hrev
  have hqmem : q ∈ N.data := by
    have hmm : q ∈ N.data.reverse := by simp [hq]
    simpa using hmm
  rw [hq, dropWhile_ws_cons q _ (hws q hqmem), ← hq, List.reverse_reverse]

/-- Helper: a token is not the empty string. -/
theorem ne_empty_of_token (N : String) (hN : IsToken N) : N ≠ "" := by
  intro h
  exact hN.1 (by rw [h])

/-- C7: for every name N that is non empty after stripping (registry
names are stored in stripped form, so a name equals its stripped form)
and every source text S, after the library cell magic marks N with S, the
registry lookup of N yields exactly S. -/
theorem c7_mark_then_get (reg : PyDict String) (N S : String)
    (hstrip : pyStrip N = N) (hne : N ≠ "") :
    dictGet N (library reg N S).1 = some S := by
  simp [library, hstrip, hne, dictGet_insert_self]

theorem c7_mark_then_get_witness :
    dictGet "foo" (library [] "foo" "x = 1").1 = some "x = 1" :=
  c7_mark_then_get [] "foo" "x = 1" (by decide) (by decide)

/-- C8: marking N twice, with S₁ then S₂, leaves the lookup of N at S₂;
the second mark adds no entry (the key list is unchanged, so nothing is
appended or versioned), and key uniqueness of the registry is
preserved. -/
theorem c8_mark_overwrites (reg : PyDict String) (N S₁ S₂ : String)
    (hstrip : pyStrip N = N) (hne : N ≠ "")
    (hnd : (dictKeys reg).Nodup) :
    dictGet N (library (library reg N S₁).1 N S₂).1 = some S₂ ∧
    dictKeys (library (library reg N S₁).1 N S₂).1
      = dictKeys (library reg N S₁).1 ∧
    (dictKeys (library (library reg N S₁).1 N S₂).1).Nodup := by
  have hfst : (library reg N S₁).1 = dictInsert N S₁ reg := by
    simp [library, hstrip, hne]
  have hsnd : (library (library reg N S₁).1 N S₂).1
      = dictInsert N S₂ (dictInsert N S₁ reg) := by
    simp [library, hstrip, hne, hfst]
  refine ⟨?_, ?_, ?_⟩
  · rw [hsnd]
    exact dictGet_insert_self N S₂ (dictInsert N S₁ reg)
  · rw [hsnd, hfst]
    exact dictKeys_insert_of_mem N S₂ (dictInsert N S₁ reg)
      (by simp [dictGet_insert_self])
  · rw [hsnd]
    exact dictKeys_insert_nodup N S₂ (dictInsert N S₁ reg)
      (dictKeys_insert_nodup N S₁ reg hnd)

theorem c8_mark_overwrites_witness :
    dictGet "foo" (library (library [("a", "0")] "foo" "S1").1 "foo" "S2").1
      = some "S2" :=
  (c8_mark_overwrites [("a", "0")] "foo" "S1" "S2" (by decide) (by decide)
    (by decide)).1

/-- C9: when the stripped name is not a registry key, import_library
reports the not found message and returns the callers namespace
unchanged; no execution happens (the executor is arbitrary) and the
registry and file system are untouched (the operation does not produce
them). -/
theorem c9_import_missing {α : Type}
    (execF : α → PyDict Nat → PyDict Nat × Option String)
    (reg : PyDict α) (line : String) (ns : PyDict Nat)
    (habs : dictGet (pyStrip line) reg = none) :
    import_library execF reg line ns = (ns, [notFoundMsg (pyStrip line)]) := by
  simp [import_library, habs]

theorem c9_import_missing_witness :
    import_library runStmts [("x", [Stmt.assign "a" 1])] "y" [("b", 2)]
      = ([("b", 2)], [notFoundMsg "y"]) := by
  have h := c9_import_missing runStmts [("x", [Stmt.assign "a" 1])] "y"
    [("b", 2)] (by decide)
  exact h.trans (by decide)

/-- C5: when the stored source of a registered name raises during
execution, import_library returns normally (the except branch of the
source is the match on the exception component, so no exception escapes
the directive) carrying the partially updated namespace and exactly the
error message built from the library name and the exception text. -/
theorem c5_import_error_caught (reg : PyDict (List Stmt)) (line : String)
    (code : List Stmt) (ns ns₂ : PyDict Nat) (e : String)
    (hreg : dictGet (pyStrip line) reg = some code)
    (hrun : runStmts code ns = (ns₂, some e)) :
    import_library runStmts reg line ns
      = (ns₂, ["Error importing library \x27" ++ pyStrip line
          ++ "\x27: " ++ e]) := by
  simp [import_library, hreg, hrun, importErrMsg]

theorem c5_import_error_caught_witness :
    import_library runStmts [("demo", [Stmt.raiseExc "boom"])] "demo" []
      = ([], ["Error importing library \x27demo\x27: boom"]) := by
  have h := c5_import_error_caught [("demo", [Stmt.raiseExc "boom"])] "demo"
    [Stmt.raiseExc "boom"] [] [] "boom" (by decide) (by decide)
  exact h.trans (by decide)

/-- C10: import_library is not atomic on execution error.  The statement
list models the Python source consisting of an assignment to x followed
by a raise: import_library reports the wrapped error, yet the callers
namespace, empty before the call, now binds x from the prefix executed
before the exception. -/
theorem c10_import_not_atomic :
    import_library runStmts
        [("demo", [Stmt.assign "x" 1, Stmt.raiseExc "boom"])] "demo" []
      = ([("x", 1)], [importErrMsg "demo" "boom"]) ∧
    dictGet "x" ([("x", 1)] : PyDict Nat) = some 1 ∧
    dictGet "x" ([] : PyDict Nat) = none := by decide

/-- C4 counterexample: registry names may contain internal whitespace
(the mark operation strips only the ends), but the export directive
splits its line on whitespace and rejects any count other than two, so
for the registered name containing a space the export writes nothing:
the universal claim over every registered name and path fails. -/
theorem c4_export_ws_name_counterexample :
    dictGet "my lib" ([("my lib", "SRC")] : PyDict String) = some "SRC" ∧
    export_library [("my lib", "SRC")] "my lib out.py" [] = ([], [usageMsg]) ∧
    dictGet "out.py" (export_library [("my lib", "SRC")] "my lib out.py" []).1
      = none := by decide

/-- C4 amended: for every registered name N and path P that are non empty
and free of whitespace, export_library writes exactly the registered
source to P in the file system, truncating any previous contents of P,
and re-exporting after re-marking N with new source overwrites P with the
new content. -/
theorem c4_export_writes_source (reg fs : PyDict String) (N P S : String)
    (hN : IsToken N) (hP : IsToken P) (hreg : dictGet N reg = some S) :
    export_library reg (N ++ " " ++ P) fs
      = (dictInsert P S fs, [exportedMsg N P]) ∧
    dictGet P (export_library reg (N ++ " " ++ P) fs).1 = some S ∧
    ∀ S₂, dictGet P
        (export_library (library reg N S₂).1 (N ++ " " ++ P) fs).1
      = some S₂ := by
  have hparse : pySplitWs (pyStrip (N ++ " " ++ P)) = [N, P] := by
    rw [pyStrip_append_tokens N P hN hP, pySplitWs_two_tokens N P hN hP]
  have hexp : export_library reg (N ++ " " ++ P) fs
      = (dictInsert P S fs, [exportedMsg N P]) := by
    simp [export_library, hparse, hreg]
  refine ⟨hexp, ?_, ?_⟩
  · rw [hexp]
    exact dictGet_insert_self P S fs
  · intro S₂
    have hmark : (library reg N S₂).1 = dictInsert N S₂ reg := by
      simp [library, pyStrip_eq_self_of_token N hN, ne_empty_of_token N hN]
    have hreg₂ : dictGet N (dictInsert N S₂ reg) = some S₂ :=
      dictGet_insert_self N S₂ reg
    have hexp₂ : export_library (dictInsert N S₂ reg) (N ++ " " ++ P) fs
        = (dictInsert P S₂ fs, [exportedMsg N P]) := by
      simp [export_library, hparse, hreg₂]
    rw [hmark, hexp₂]
    exact dictGet_insert_self P S₂ fs

theorem c4_export_writes_source_witness :
    dictGet "out.py"
        (export_library [("foo", "SRC")] ("foo" ++ " " ++ "out.py")
          [("out.py", "OLD")]).1
      = some "SRC" :=
  (c4_export_writes_source [("foo", "SRC")] [("out.py", "OLD")] "foo"
    "out.py" "SRC" (by decide) (by decide) (by decide)).2.1

/-- C2: for every name of the form cell.N, that is, whose dot split is
exactly the sentinel followed by the single segment N, find_spec returns
a spec wrapping the registered source of N through the loader when N is
registered and none when it is not, and for every name whose dot split
starts with the sentinel and has three or more segments it returns none;
the function is total, so no branch raises. -/
theorem c2_find_spec_iff (reg : PyDict String) (sysMods : PyDict PyModule)
    (fullname N : String) (hparse : pySplitDot fullname = ["cell", N]) :
    (find_spec reg sysMods fullname).1
      = (dictGet N reg).map (fun code => ModSpec.cellSpec fullname N code) ∧
    ∀ M, (pySplitDot M).headD "" = "cell" → 3 ≤ (pySplitDot M).length →
      (find_spec reg sysMods M).1 = none := by
  constructor
  · cases hget : dictGet N reg <;> simp [find_spec, hparse, hget]
  · intro M h₁ h₂
    have hl1 : (pySplitDot M).length ≠ 1 := by omega
    have hl2 : (pySplitDot M).length ≠ 2 := by omega
    have h₁' : (pySplitDot M).head?.getD "" = "cell" := by simpa using h₁
    simp [find_spec, h₁', hl1, hl2]

theorem c2_find_spec_iff_witness :
    (find_spec [("foo", "x = 1")] [] "cell.foo").1
      = some (ModSpec.cellSpec "cell.foo" "foo" "x = 1") := by
  have h := c2_find_spec_iff [("foo", "x = 1")] [] "cell.foo" "foo" (by decide)
  exact h.1.trans (by decide)

/-- C3 counterexample: on the bare sentinel name the finder does install
resolver visible module cache state: starting from an empty cache, after
find_spec on the name cell the cache maps cell to the synthetic module,
refuting the no cache part of the claim (the other two parts hold: the
advertised member list equals the registered names and the return value
is none). -/
theorem c3_sentinel_caches_counterexample :
    (find_spec [("foo", "pass")] [] "cell").1 = none ∧
    (find_spec [("foo", "pass")] [] "cell").2
      = [("cell", PyModule.mk "cell" "cell" ["foo"])] ∧
    dictGet "cell" (find_spec [("foo", "pass")] [] "cell").2 ≠ none := by
  decide

/-- C3 amended: on exactly the sentinel name, find_spec builds the
synthetic module whose advertised member list equals the registered names
in registry order, returns none so that normal resolution continues, and
installs that module into the interpreter module cache under the name
cell. -/
theorem c3_sentinel_behavior (reg : PyDict String)
    (sysMods : PyDict PyModule) :
    find_spec reg sysMods "cell"
      = (none,
          dictInsert "cell" (PyModule.mk "cell" "cell" (dictKeys reg))
            sysMods) := by
  have hp : pySplitDot "cell" = ["cell"] := by decide
  simp [find_spec, hp]

/-- C1 counterexample: the installer inserts the registry backed finder at
the front of the meta path, so for the bare name os, which the standard
finder resolves, resolution is served by the registry backed finder (a
cell spec, not the standard spec): the finder is queried first, not after
all standard resolvers have failed. -/
theorem c1_front_insertion_counterexample :
    (runFinder [("os", "x = 1")] [] stdOsFinder "os").1
      = some (ModSpec.stdSpec "os") ∧
    installFinder [stdOsFinder] = [Finder.cellFinder, stdOsFinder] ∧
    (resolveMeta [("os", "x = 1")] (installFinder [stdOsFinder]) [] "os").1
      = some (ModSpec.cellSpec "os" "os" "x = 1") := by
  refine ⟨by decide, rfl, by decide⟩

/-- C1 amended: the finder is inserted at the front of the meta path and
is queried first: every bare (single segment, non sentinel) name that is
registered is served by the registry backed finder as a cell spec,
regardless of what any standard resolver later in the chain could
resolve, so registered names shadow real modules. -/
theorem c1_registered_name_shadows (reg : PyDict String)
    (metaPath : List Finder) (sysMods : PyDict PyModule)
    (name code : String)
    (hfresh : metaPath.any isCellFinder = false)
    (hbare : pySplitDot name = [name]) (hnc : name ≠ "cell")
    (hreg : dictGet name reg = some code) :
    (resolveMeta reg (installFinder metaPath) sysMods name).1
      = some (ModSpec.cellSpec name name code) := by
  have hinst : installFinder metaPath = Finder.cellFinder :: metaPath := by
    simp [installFinder, hfresh]
  have hhead : (pySplitDot name).head?.getD "" = name := by
    rw [hbare]; rfl
  have hfind : find_spec reg sysMods name
      = (some (ModSpec.cellSpec name name code), sysMods) := by
    simp [find_spec, hreg]
    intro hcell
    exact absurd (hhead.symm.trans hcell) hnc
  rw [hinst]
  simp [resolveMeta, runFinder, hfind]

theorem c1_registered_name_shadows_witness :
    (resolveMeta [("os", "x = 1")] (installFinder [stdOsFinder]) [] "os").1
      = some (ModSpec.cellSpec "os" "os" "x = 1") :=
  c1_registered_name_shadows [("os", "x = 1")] [stdOsFinder] [] "os" "x = 1"
    (by decide) (by decide) (by decide) (by decide)

/-- C6: the raw installer string, whose tail is reproduced here byte for
byte, contains the corrupted line for the f string of
inject_export_button: the raw string wrapper turned the triple quoted
opener into a backslash followed by a quote, so the installed
cell_library.py contains the text f backslash quote and nowhere the
original triple quoted opener, and therefore differs from the component
source and fails to parse when loaded back. -/
theorem c6_artifact_fstring_corrupted :
    List.IsInfix ("    js_code = f\\\x22\n").data
      injectExportButtonArtifactText.data ∧
    ¬ List.IsInfix ("js_code = f\x22\x22\x22").data
      injectExportButtonArtifactText.data := by
  decide

end CellLib
